import Mathlib

/-!
# A shallow embedding of the usearch-images server core

This file embeds the dataset / search orchestration of `src/server.py`:
the `Dataset` record and `open_dataset` loader, the global dataset
registry, the search dispatcher `find_vector`, the service facade
(`find_with_vector`, `find_with_text`, `find_with_image`, `size`,
`dimensions`) and the ASCII vector codec used by `find_with_vector`.

Modelling conventions:
* numeric vector components are rationals (a model of the floats used by
  the code); a vector is a `List ℚ` (the code flattens every query to a
  1-D array before use, so 1-D lists suffice);
* the external usearch index is a black box per the specification: an
  `Index` carries its dimensionality `ndim`, its current number of
  vectors `size`, and an opaque `search` function returning an ordered
  list of `(label, distance)` pairs; labels are integers;
* Python exceptions become `Except Err`: the failed membership assert in
  `find_vector` and the `KeyError` of `size`/`dimensions` are the
  specification's `UnknownDatasetError`; an out-of-range list index is
  `Err.indexError`; parse failures are `Err.malformedVector`; missing
  dataset files are `Err.notFound`;
* Python list indexing `uris[id]` (including negative indices counted
  from the end) is `pyGet`.
-/

namespace UImg

/-- Decidable equality of `Except` values, so that concrete runs of the
embedded operations can be checked by `decide`. -/
instance exceptDecEq {ε α : Type} [DecidableEq ε] [DecidableEq α] :
    DecidableEq (Except ε α)
  | .error e, .error f =>
    if h : e = f then isTrue (congrArg Except.error h)
    else isFalse fun hh => h (Except.error.inj hh)
  | .error _, .ok _ => isFalse fun hh => Except.noConfusion hh
  | .ok _, .error _ => isFalse fun hh => Except.noConfusion hh
  | .ok a, .ok b =>
    if h : a = b then isTrue (congrArg Except.ok h)
    else isFalse fun hh => h (Except.ok.inj hh)

/-- The error kinds of the design (§7), plus the raw out-of-range
indexing failure that Python list subscription raises. -/
inductive Err where
  | unknownDataset
  | dimensionMismatch
  | malformedVector
  | notFound
  | indexError
  deriving Repr, DecidableEq

/-- A matrix as loaded by `load_matrix` from an `images.fbin` file: the
row vectors plus the column count recorded in the file header
(`vectors.shape[1]` in the code). -/
structure Mat where
  data : List (List ℚ)
  ncols : Nat

/-- Black-box similarity index (specification §4.3): an opaque handle
over `size` vectors of dimension `ndim`; `search q k` returns an ordered
list of `(label, distance)` pairs. -/
structure Index where
  ndim : Nat
  size : Nat
  search : List ℚ → Nat → List (Int × ℚ)

/-- The `Dataset` dataclass of `server.py`. -/
structure Dataset where
  index : Index
  uris : List String
  vectors : Mat

/-- A query image (PIL image), modelled as its pixel data. -/
structure Image where
  data : List (List ℚ)

/-- The uform embedding model: four operations over opaque tensors,
modelled as pure functions on rational vectors (specification §6). -/
structure Model where
  preprocess_text : String → List ℚ
  encode_text : List ℚ → List ℚ
  preprocess_image : Image → List ℚ
  encode_image : List ℚ → List ℚ

/-- The dataset registry: the `datasets` dict of `server.py`. -/
abbrev Registry := List (String × Dataset)

/-! ## Line splitting (`str.splitlines` for newline-separated files) -/

/-- Split a character list at every occurrence of `sep`; the separator
is dropped.  `splitOnChar sep []` is `[[]]`, matching Python's
`"".split(sep)`. -/
def splitOnChar (sep : Char) : List Char → List (List Char)
  | [] => [[]]
  | c :: rest =>
    if c = sep then [] :: splitOnChar sep rest
    else
      match splitOnChar sep rest with
      | [] => [[c]]
      | g :: gs => (c :: g) :: gs

/-- Python's `str.splitlines()` restricted to newline-separated files:
splits on the newline character and drops a trailing empty line. -/
def splitlines (s : String) : List String :=
  if s.data = [] then []
  else if s.data.getLast? = some '\n' then
    ((splitOnChar '\n' s.data).map String.mk).dropLast
  else (splitOnChar '\n' s.data).map String.mk

/-! ## `open_dataset` -/

/-- The contents a dataset directory may hold: each expected file is
either present (with its parsed contents) or missing. -/
structure DirContents where
  imagesFbin : Option Mat
  imagesUsearch : Option Index
  imagesTxt : Option String

/-- Modelled from the spec: `load_matrix` from the external `usearch.io`
is not part of this repository; per §4.1/§6 it yields the matrix stored
in the file and fails with `NotFoundError` when the file is missing. -/
def load_matrix : Option Mat → Except Err Mat
  | none => .error .notFound
  | some m => .ok m

/-- Modelled from the spec: restoring a persisted usearch `Index` from
its file is external library code; per §4.1 it fails with
`NotFoundError` when the file is missing and with
`DimensionMismatchError` when the persisted index's dimensionality
disagrees with the requested `ndim` (the vector file's column count). -/
def loadIndex (ndim : Nat) : Option Index → Except Err Index
  | none => .error .notFound
  | some idx => if idx.ndim ≠ ndim then .error .dimensionMismatch else .ok idx

/-- Reading the `images.txt` file: `NotFoundError` when missing. -/
def readFile : Option String → Except Err String
  | none => .error .notFound
  | some t => .ok t

/-- `open_dataset` of `server.py`: load the vector matrix, restore the
index with `ndim = vectors.shape[1]`, read and split the URI list, and
pack the three into a `Dataset` — in exactly that order. -/
def open_dataset (dir : DirContents) : Except Err Dataset :=
  match load_matrix dir.imagesFbin with
  | .error e => .error e
  | .ok vectors =>
    let ndim := vectors.ncols
    match loadIndex ndim dir.imagesUsearch with
    | .error e => .error e
    | .ok index =>
      match readFile dir.imagesTxt with
      | .error e => .error e
      | .ok txt => .ok ⟨index, splitlines txt, vectors⟩

/-! ## Python list subscription and the label → URI mapping loop -/

/-- Python list subscription `xs[i]`: a nonnegative index reads from the
front, a negative index is counted from the end, and an index outside
`[-len, len)` fails (`IndexError`). -/
def pyGet {α : Type} (xs : List α) (i : Int) : Option α :=
  if 0 ≤ i then xs.get? i.toNat
  else if 0 ≤ i + (xs.length : Int) then xs.get? (i + (xs.length : Int)).toNat
  else none

/-- The list comprehension `[dataset.uris[id] for id in ids]`: maps each
label through Python subscription, failing (as the comprehension does)
as soon as one subscription is out of range. -/
def mapUris (uris : List String) : List Int → Option (List String)
  | [] => some []
  | id :: rest =>
    match pyGet uris id with
    | none => none
    | some u =>
      match mapUris uris rest with
      | none => none
      | some us => some (u :: us)

/-- `find_vector` of `server.py`: flatten the query (already 1-D here),
assert the dataset name is registered (`Err.unknownDataset` on failure),
run the top-`count` index search, and map the returned labels through
`uris[id]` (`Err.indexError` if a label is out of range). -/
def find_vector (reg : Registry) (dataset_name : String) (vector : List ℚ)
    (count : Nat) : Except Err (List String) :=
  match reg.lookup dataset_name with
  | none => .error .unknownDataset
  | some dataset =>
    let found := dataset.index.search vector count
    let ids := found.map Prod.fst
    match mapUris dataset.uris ids with
    | none => .error .indexError
    | some out => .ok out

/-! ## The ASCII vector codec

`find_with_vector` decodes its query with `_ascii_to_vector` from the
external `usearch.server` module.  Modelled from the spec (§4.2): the
encoding is "an application-defined compact text/ASCII encoding" of a
numeric vector, failing with `MalformedVectorError` on parse failure.
We fix it as comma-separated signed decimal numerals (the numeric
components, floats in the code, are modelled as integer-valued
rationals, so "within floating-point tolerance" becomes exact
equality). -/

/-- Apply a fallible function to every element, failing as soon as one
application fails (the semantics of a Python comprehension whose body
may raise). -/
def mapOption {α β : Type} (f : α → Option β) : List α → Option (List β)
  | [] => some []
  | a :: rest =>
    match f a with
    | none => none
    | some b =>
      match mapOption f rest with
      | none => none
      | some bs => some (b :: bs)

/-- A decimal digit character to its value; `none` on anything else. -/
def charToDigit (c : Char) : Option Nat :=
  if 48 ≤ c.toNat ∧ c.toNat ≤ 57 then some (c.toNat - 48) else none

/-- The value of a most-significant-first digit list. -/
def digitsVal (ds : List Nat) : Nat := ds.foldl (fun a d => 10 * a + d) 0

/-- Parse a nonempty all-digit character list as a natural number. -/
def parseNatChars (cs : List Char) : Option Nat :=
  if cs = [] then none else (mapOption charToDigit cs).map digitsVal

/-- Parse an optionally `-`-signed decimal numeral as an integer. -/
def parseIntChars : List Char → Option Int
  | [] => none
  | c :: rest =>
    if c = '-' then (parseNatChars rest).map (fun n => -(n : Int))
    else (parseNatChars (c :: rest)).map (fun n => (n : Int))

/-- Render a natural number as most-significant-first decimal digits. -/
def encodeNat (n : Nat) : List Char :=
  if n = 0 then ['0'] else ((Nat.digits 10 n).map Nat.digitChar).reverse

/-- Render an integer as an optionally signed decimal numeral. -/
def encodeInt (i : Int) : List Char :=
  if i < 0 then '-' :: encodeNat i.natAbs else encodeNat i.toNat

/-- Join character-list chunks with a single comma between them. -/
def joinComma : List (List Char) → List Char
  | [] => []
  | [p] => p
  | p :: ps => p ++ ',' :: joinComma ps

/-- Encoder for the ASCII vector codec: comma-separated components. -/
def vector_to_ascii (v : List Int) : String :=
  String.mk (joinComma (v.map encodeInt))

/-- Decoder for the ASCII vector codec (the `_ascii_to_vector` used by
`find_with_vector`): split on commas, parse every chunk as a number,
fail with `MalformedVectorError` if any chunk does not parse. -/
def ascii_to_vector (s : String) : Except Err (List ℚ) :=
  match mapOption parseIntChars (splitOnChar ',' s.data) with
  | none => .error .malformedVector
  | some ints => .ok (ints.map fun i => (i : ℚ))

/-! ## The service facade -/

/-- `find_with_vector` of `server.py`: decode the ASCII query, then
dispatch to `find_vector`.  Note the decode runs before `find_vector`'s
registry check. -/
def find_with_vector (reg : Registry) (dataset query : String)
    (count : Nat) : Except Err (List String) :=
  match ascii_to_vector query with
  | .error e => .error e
  | .ok v => find_vector reg dataset v count

/-- `find_with_text` of `server.py`: preprocess and encode the text with
the model, then dispatch to `find_vector`. -/
def find_with_text (reg : Registry) (model : Model) (dataset query : String)
    (count : Nat) : Except Err (List String) :=
  let text_data := model.preprocess_text query
  let text_embedding := model.encode_text text_data
  find_vector reg dataset text_embedding count

/-- `find_with_image` of `server.py`: preprocess and encode the image
with the model, then dispatch to `find_vector`. -/
def find_with_image (reg : Registry) (model : Model) (dataset : String)
    (query : Image) (count : Nat) : Except Err (List String) :=
  let image_data := model.preprocess_image query
  let image_embedding := model.encode_image image_data
  find_vector reg dataset image_embedding count

/-- `size` of `server.py`: `len(datasets[dataset].index)` — the number
of vectors held by the index (not the length of the URI list); a raw
dict lookup, so an unknown name fails (`KeyError`, the specification's
`UnknownDatasetError`). -/
def size (reg : Registry) (dataset : String) : Except Err Nat :=
  match reg.lookup dataset with
  | none => .error .unknownDataset
  | some d => .ok d.index.size

/-- `dimensions` of `server.py`: `datasets[dataset].index.ndim`. -/
def dimensions (reg : Registry) (dataset : String) : Except Err Nat :=
  match reg.lookup dataset with
  | none => .error .unknownDataset
  | some d => .ok d.index.ndim

/-! ## Stateful view of the endpoints

The module-level state of `server.py` is the `datasets` registry and the
`model`.  To express the frame property (no endpoint mutates shared
state) each endpoint is restated as a state transformer that receives
the shared state and returns it alongside its result; every read of a
global becomes a read of this state, and the bodies mirror the source
statement by statement. -/

/-- The module-level shared state of `server.py`. -/
structure ServerState where
  datasets : Registry
  model : Model

/-- Stateful `find_vector`. -/
def find_vectorS (s : ServerState) (dataset_name : String) (vector : List ℚ)
    (count : Nat) : Except Err (List String) × ServerState :=
  match s.datasets.lookup dataset_name with
  | none => (.error .unknownDataset, s)
  | some dataset =>
    let found := dataset.index.search vector count
    let ids := found.map Prod.fst
    match mapUris dataset.uris ids with
    | none => (.error .indexError, s)
    | some out => (.ok out, s)

/-- Stateful `find_with_vector`. -/
def find_with_vectorS (s : ServerState) (dataset query : String)
    (count : Nat) : Except Err (List String) × ServerState :=
  match ascii_to_vector query with
  | .error e => (.error e, s)
  | .ok v => find_vectorS s dataset v count

/-- Stateful `find_with_text`. -/
def find_with_textS (s : ServerState) (dataset query : String)
    (count : Nat) : Except Err (List String) × ServerState :=
  let text_data := s.model.preprocess_text query
  let text_embedding := s.model.encode_text text_data
  find_vectorS s dataset text_embedding count

/-- Stateful `find_with_image`. -/
def find_with_imageS (s : ServerState) (dataset : String) (query : Image)
    (count : Nat) : Except Err (List String) × ServerState :=
  let image_data := s.model.preprocess_image query
  let image_embedding := s.model.encode_image image_data
  find_vectorS s dataset image_embedding count

/-- Stateful `size`. -/
def sizeS (s : ServerState) (dataset : String) :
    Except Err Nat × ServerState :=
  match s.datasets.lookup dataset with
  | none => (.error .unknownDataset, s)
  | some d => (.ok d.index.size, s)

/-- Stateful `dimensions`. -/
def dimensionsS (s : ServerState) (dataset : String) :
    Except Err Nat × ServerState :=
  match s.datasets.lookup dataset with
  | none => (.error .unknownDataset, s)
  | some d => (.ok d.index.ndim, s)

/-! ## Concrete fixtures

Small concrete datasets used to evaluate the embedded operations on
explicit inputs (several exercise the absence of any consistency check
between the three files a dataset directory provides). -/

/-- A 2×2 matrix fixture. -/
def mat0 : Mat := ⟨[[0, 0], [1, 1]], 2⟩

/-- A two-vector index whose search ignores the query and returns
labels 0 and 1 with non-decreasing distances. -/
def idx0 : Index := ⟨2, 2, fun _ k => [((0 : Int), (0 : ℚ)), (1, 1)].take k⟩

/-- A directory whose URI file has three lines although its index and
matrix hold two vectors — nothing in `open_dataset` rejects it. -/
def dir0 : DirContents := ⟨some mat0, some idx0, some "a\nb\nc"⟩

/-- The dataset `open_dataset` builds from `dir0`. -/
def ds0 : Dataset := ⟨idx0, splitlines "a\nb\nc", mat0⟩

/-- A consistent dataset: two URIs over the two-vector index. -/
def ds1 : Dataset := ⟨idx0, ["a", "b"], mat0⟩

/-- An index that returns the out-of-range label 5. -/
def idxBad : Index := ⟨2, 1, fun _ k => [((5 : Int), (0 : ℚ))].take k⟩

/-- A dataset holding a single URI while its index returns label 5. -/
def dsBad : Dataset := ⟨idxBad, ["a"], mat0⟩

/-- An index that returns the negative label -1. -/
def idxNeg : Index := ⟨2, 2, fun _ k => [((-1 : Int), (0 : ℚ))].take k⟩

/-- A two-URI dataset whose index returns the negative label -1. -/
def dsNeg : Dataset := ⟨idxNeg, ["a", "b"], mat0⟩

/-! ## Helper lemmas on `pyGet` and `mapUris` -/

lemma pyGet_nonneg {α : Type} (xs : List α) (i : Int) (h : 0 ≤ i) :
    pyGet xs i = xs.get? i.toNat := by
  simp [pyGet, h]

lemma pyGet_neg {α : Type} (xs : List α) (i : Int) (hneg : i < 0)
    (hge : -(xs.length : Int) ≤ i) :
    pyGet xs i = xs.get? (i + (xs.length : Int)).toNat := by
  have h1 : ¬ 0 ≤ i := not_le.mpr hneg
  have h2 : 0 ≤ i + (xs.length : Int) := by omega
  simp [pyGet, h1, h2]

lemma pyGet_none_of_ge {α : Type} (xs : List α) (i : Int)
    (h : (xs.length : Int) ≤ i) : pyGet xs i = none := by
  have h0 : 0 ≤ i := le_trans (Int.ofNat_nonneg _) h
  rw [pyGet_nonneg xs i h0]
  exact List.get?_eq_none.mpr (by omega)

lemma get?_eq_some_getD {α : Type} (xs : List α) (n : Nat) (dflt : α)
    (h : n < xs.length) : xs.get? n = some (xs.getD n dflt) := by
  simp [List.getD_eq_getElem?_getD, List.getElem?_eq_getElem h]

lemma pyGet_some_of_lt {α : Type} (xs : List α) (i : Int) (dflt : α)
    (h0 : 0 ≤ i) (h : i < (xs.length : Int)) :
    pyGet xs i = some (xs.getD i.toNat dflt) := by
  rw [pyGet_nonneg xs i h0]
  exact get?_eq_some_getD xs i.toNat dflt (by omega)

lemma mapUris_map (uris : List String) (f : Int → String) :
    ∀ ids : List Int, (∀ id ∈ ids, pyGet uris id = some (f id)) →
      mapUris uris ids = some (ids.map f)
  | [], _ => rfl
  | id :: rest, h => by
    have h1 : pyGet uris id = some (f id) := h id (by simp)
    have hr := mapUris_map uris f rest fun i hi => h i (by simp [hi])
    simp [mapUris, h1, hr]

lemma mapUris_none (uris : List String) :
    ∀ ids : List Int, (∃ id ∈ ids, pyGet uris id = none) →
      mapUris uris ids = none
  | [], h => by
    rcases h with ⟨j, hj, _⟩
    exact absurd hj (List.not_mem_nil j)
  | id :: rest, h => by
    rcases h with ⟨j, hj, hjn⟩
    rcases List.mem_cons.mp hj with rfl | hjr
    · simp [mapUris, hjn]
    · have hr := mapUris_none uris rest ⟨j, hjr, hjn⟩
      unfold mapUris
      cases pyGet uris id with
      | none => rfl
      | some u => rw [hr]

lemma mapUris_get? (uris : List String) :
    ∀ (ids : List Int) (out : List String), mapUris uris ids = some out →
      out.length = ids.length ∧
      ∀ i : Nat, out.get? i = (ids.get? i).bind (pyGet uris)
  | [], out, h => by
    have hout : out = [] := by simpa [mapUris] using h.symm
    subst hout
    exact ⟨rfl, fun i => by simp⟩
  | id :: rest, out, h => by
    unfold mapUris at h
    cases hg : pyGet uris id with
    | none => rw [hg] at h; exact absurd h (by simp)
    | some u =>
      rw [hg] at h
      cases hr : mapUris uris rest with
      | none => rw [hr] at h; exact absurd h (by simp)
      | some us =>
        rw [hr] at h
        have hout : out = u :: us := by
          injection h with h'
          exact h'.symm
        subst hout
        have ih := mapUris_get? uris rest us hr
        refine ⟨by simpa using ih.1, fun i => ?_⟩
        cases i with
        | zero => simpa using hg.symm
        | succ i => simpa using ih.2 i

/-! ## Helper lemmas: the ASCII codec round-trips -/

lemma charToDigit_digitChar (d : Nat) (h : d < 10) :
    charToDigit (Nat.digitChar d) = some d := by
  interval_cases d <;> decide

lemma digitChar_not_special (d : Nat) (h : d < 10) :
    Nat.digitChar d ≠ '-' ∧ Nat.digitChar d ≠ ',' := by
  interval_cases d <;> exact ⟨by decide, by decide⟩

lemma digitsVal_append (l : List Nat) (r : Nat) :
    digitsVal (l ++ [r]) = 10 * digitsVal l + r := by
  simp [digitsVal, List.foldl_append]

lemma digitsVal_digits_reverse (n : Nat) :
    digitsVal ((Nat.digits 10 n).reverse) = n := by
  induction n using Nat.strong_induction_on with
  | _ n ih =>
    rcases Nat.eq_zero_or_pos n with rfl | hpos
    · simp [digitsVal]
    · rw [Nat.digits_def' (by norm_num : 1 < 10) hpos, List.reverse_cons,
        digitsVal_append,
        ih (n / 10) (Nat.div_lt_self hpos (by norm_num))]
      omega

lemma mapOption_charToDigit_digitChar :
    ∀ ds : List Nat, (∀ d ∈ ds, d < 10) →
      mapOption charToDigit (ds.map Nat.digitChar) = some ds
  | [], _ => rfl
  | d :: rest, h => by
    have h1 := charToDigit_digitChar d (h d (by simp))
    have hr := mapOption_charToDigit_digitChar rest fun x hx => h x (by simp [hx])
    simp [mapOption, h1, hr]

lemma encodeNat_chars (n : Nat) :
    ∀ c ∈ encodeNat n, ∃ d, d < 10 ∧ c = Nat.digitChar d := by
  intro c hc
  unfold encodeNat at hc
  by_cases h0 : n = 0
  · rw [if_pos h0] at hc
    simp at hc
    exact ⟨0, by norm_num, by simp [hc]; rfl⟩
  · rw [if_neg h0] at hc
    rw [List.mem_reverse] at hc
    rcases List.mem_map.mp hc with ⟨d, hd, rfl⟩
    exact ⟨d, Nat.digits_lt_base (by norm_num) hd, rfl⟩

lemma encodeNat_ne_nil (n : Nat) : encodeNat n ≠ [] := by
  unfold encodeNat
  by_cases h0 : n = 0
  · simp [h0]
  · rw [if_neg h0]
    simp [Nat.digits_ne_nil_iff_ne_zero.mpr h0]

lemma parse_encodeNat (n : Nat) : parseNatChars (encodeNat n) = some n := by
  rcases Nat.eq_zero_or_pos n with rfl | hpos
  · decide
  · unfold encodeNat
    rw [if_neg (by omega : ¬ n = 0)]
    unfold parseNatChars
    have hne : ((Nat.digits 10 n).map Nat.digitChar).reverse ≠ [] := by
      simp [Nat.digits_ne_nil_iff_ne_zero.mpr (by omega : n ≠ 0)]
    rw [if_neg hne, ← List.map_reverse,
      mapOption_charToDigit_digitChar _
        (fun d hd => Nat.digits_lt_base (by norm_num) (List.mem_reverse.mp hd))]
    simp [digitsVal_digits_reverse]

lemma encodeInt_no_comma (i : Int) : ∀ c ∈ encodeInt i, c ≠ ',' := by
  intro c hc
  unfold encodeInt at hc
  by_cases hneg : i < 0
  · rw [if_pos hneg] at hc
    rcases List.mem_cons.mp hc with rfl | hc'
    · decide
    · rcases encodeNat_chars _ c hc' with ⟨d, hd, rfl⟩
      exact (digitChar_not_special d hd).2
  · rw [if_neg hneg] at hc
    rcases encodeNat_chars _ c hc with ⟨d, hd, rfl⟩
    exact (digitChar_not_special d hd).2

lemma parse_encodeInt (i : Int) : parseIntChars (encodeInt i) = some i := by
  by_cases hneg : i < 0
  · rw [encodeInt, if_pos hneg]
    simp only [parseIntChars]
    rw [if_pos trivial, parse_encodeNat]
    simp [abs_of_neg hneg]
  · rw [encodeInt, if_neg hneg]
    cases he : encodeNat i.toNat with
    | nil => exact absurd he (encodeNat_ne_nil _)
    | cons c rest =>
      have hcd : ¬ c = '-' := by
        rcases encodeNat_chars _ c (he ▸ List.mem_cons_self c rest) with ⟨d, hd, rfl⟩
        exact (digitChar_not_special d hd).1
      simp only [parseIntChars]
      rw [if_neg hcd, ← he, parse_encodeNat]
      simp
      omega

lemma splitOnChar_no_sep (sep : Char) :
    ∀ p : List Char, sep ∉ p → splitOnChar sep p = [p]
  | [], _ => rfl
  | c :: rest, h => by
    have hc : ¬ c = sep := fun hh => h (hh ▸ List.mem_cons_self c rest)
    have hr := splitOnChar_no_sep sep rest fun hh => h (List.mem_cons_of_mem c hh)
    simp [splitOnChar, hc, hr]

lemma splitOnChar_append_sep (sep : Char) (p rest : List Char)
    (hp : sep ∉ p) :
    splitOnChar sep (p ++ sep :: rest) = p :: splitOnChar sep rest := by
  induction p with
  | nil => simp [splitOnChar]
  | cons c cs ih =>
    have hc : ¬ c = sep := fun hh => hp (hh ▸ List.mem_cons_self c cs)
    have hcs : sep ∉ cs := fun hh => hp (List.mem_cons_of_mem c hh)
    simp [splitOnChar, hc, ih hcs]

lemma splitOnChar_joinComma :
    ∀ parts : List (List Char), parts ≠ [] → (∀ p ∈ parts, ',' ∉ p) →
      splitOnChar ',' (joinComma parts) = parts
  | [], h, _ => absurd rfl h
  | [p], _, hp => by
    simp [joinComma, splitOnChar_no_sep ',' p (hp p (by simp))]
  | p :: q :: ps, _, hp => by
    have hpp : (',' : Char) ∉ p := hp p (by simp)
    have ih := splitOnChar_joinComma (q :: ps) (by simp)
      fun x hx => hp x (List.mem_cons_of_mem p hx)
    show splitOnChar ',' (p ++ ',' :: joinComma (q :: ps)) = p :: q :: ps
    rw [splitOnChar_append_sep ',' p _ hpp, ih]

lemma mapOption_parse_encode :
    ∀ v : List Int, mapOption parseIntChars (v.map encodeInt) = some v
  | [] => rfl
  | i :: rest => by
    simp [mapOption, parse_encodeInt, mapOption_parse_encode rest]

/-! ## Helper lemmas: the endpoints do not touch the server state -/

lemma find_vectorS_spec (s : ServerState) (n : String) (v : List ℚ)
    (k : Nat) : find_vectorS s n v k = (find_vector s.datasets n v k, s) := by
  cases h : s.datasets.lookup n with
  | none => simp [find_vectorS, find_vector, h]
  | some d =>
    cases hm : mapUris d.uris ((d.index.search v k).map Prod.fst) with
    | none => simp [find_vectorS, find_vector, h, hm]
    | some out => simp [find_vectorS, find_vector, h, hm]

lemma find_with_vectorS_spec (s : ServerState) (d q : String) (k : Nat) :
    find_with_vectorS s d q k = (find_with_vector s.datasets d q k, s) := by
  unfold find_with_vectorS find_with_vector
  cases ascii_to_vector q with
  | error e => rfl
  | ok v => exact find_vectorS_spec s d v k

lemma find_with_textS_spec (s : ServerState) (d q : String) (k : Nat) :
    find_with_textS s d q k = (find_with_text s.datasets s.model d q k, s) :=
  find_vectorS_spec s d (s.model.encode_text (s.model.preprocess_text q)) k

lemma find_with_imageS_spec (s : ServerState) (d : String) (q : Image)
    (k : Nat) :
    find_with_imageS s d q k = (find_with_image s.datasets s.model d q k, s) :=
  find_vectorS_spec s d (s.model.encode_image (s.model.preprocess_image q)) k

lemma sizeS_spec (s : ServerState) (d : String) :
    sizeS s d = (size s.datasets d, s) := by
  unfold sizeS size
  cases s.datasets.lookup d with
  | none => rfl
  | some x => rfl

lemma dimensionsS_spec (s : ServerState) (d : String) :
    dimensionsS s d = (dimensions s.datasets d, s) := by
  unfold dimensionsS dimensions
  cases s.datasets.lookup d with
  | none => rfl
  | some x => rfl

/-! ## Claim theorems -/

/-- **C1 (counterexample)**: the claim quantifies over every call with an
absent dataset name, but `find_with_vector` parses its query before
`find_vector`'s registry check, so with a malformed query and an absent
name it fails with `MalformedVectorError`, not `UnknownDatasetError`. -/
theorem find_with_vector_malformed_before_registry_cex :
    find_with_vector [] "unsplash25k" "x" 10 = .error .malformedVector
    ∧ Err.malformedVector ≠ Err.unknownDataset :=
  ⟨by decide, by decide⟩

/-- **C1 (amended)**: with a dataset name absent from the registry,
`find_vector`, `find_with_text`, `find_with_image`, `size` and
`dimensions` fail with `UnknownDatasetError` and return no partial
result; `find_with_vector` does so whenever its query decodes
successfully (when the query is malformed it fails first, with
`MalformedVectorError`, before the registry is consulted). -/
theorem absent_dataset_fails_unknownDataset (reg : Registry) (m : Model)
    (name q : String) (v : List ℚ) (img : Image) (k : Nat)
    (habs : reg.lookup name = none) :
    find_vector reg name v k = .error .unknownDataset
    ∧ find_with_text reg m name q k = .error .unknownDataset
    ∧ find_with_image reg m name img k = .error .unknownDataset
    ∧ size reg name = .error .unknownDataset
    ∧ dimensions reg name = .error .unknownDataset
    ∧ (∀ w, ascii_to_vector q = .ok w →
        find_with_vector reg name q k = .error .unknownDataset) := by
  have hfv : ∀ v' : List ℚ, find_vector reg name v' k = .error .unknownDataset := by
    intro v'
    unfold find_vector
    rw [habs]
  refine ⟨hfv v, hfv _, hfv _, ?_, ?_, ?_⟩
  · unfold size
    rw [habs]
  · unfold dimensions
    rw [habs]
  · intro w hw
    unfold find_with_vector
    rw [hw]
    exact hfv w

/-- Witness for `absent_dataset_fails_unknownDataset` at the empty
registry and the name "unsplash25k". -/
theorem absent_dataset_fails_unknownDataset_witness :
    size [] "unsplash25k" = .error .unknownDataset
    ∧ find_vector [] "unsplash25k" [] 10 = .error .unknownDataset := by
  have h := absent_dataset_fails_unknownDataset []
    ⟨fun _ => [], fun w => w, fun _ => [], fun w => w⟩
    "unsplash25k" "0" [] ⟨[]⟩ 10 rfl
  exact ⟨h.2.2.2.1, h.1⟩

/-- **C2 (counterexample)**: with a one-URI dataset whose index returns
label 5, the call fails with an indexing error instead of silently
dropping the unmapped label. -/
theorem unmapped_label_not_dropped_cex :
    find_vector [("d", dsBad)] "d" [] 1 = .error .indexError := by
  decide

/-- **C2 (amended)**: each label the index returns is mapped through
Python subscription of `uris` in order; a label with no corresponding
URI makes the entire call fail with an indexing error (it is not dropped
and not recovered from). -/
theorem label_mapping_strict (reg : Registry) (name : String) (d : Dataset)
    (v : List ℚ) (k : Nat) (f : Int → String)
    (hd : reg.lookup name = some d) :
    ((∀ m ∈ d.index.search v k, pyGet d.uris m.1 = some (f m.1)) →
        find_vector reg name v k =
          .ok ((d.index.search v k).map fun m => f m.1))
    ∧ ((∃ m ∈ d.index.search v k, pyGet d.uris m.1 = none) →
        find_vector reg name v k = .error .indexError) := by
  constructor
  · intro hall
    have hma : ∀ id ∈ (d.index.search v k).map Prod.fst,
        pyGet d.uris id = some (f id) := by
      intro id hid
      rcases List.mem_map.mp hid with ⟨m, hm, rfl⟩
      exact hall m hm
    simp only [find_vector, hd]
    rw [mapUris_map d.uris f _ hma, List.map_map]
    rfl
  · intro hex
    rcases hex with ⟨m, hm, hnone⟩
    simp only [find_vector, hd]
    rw [mapUris_none d.uris _ ⟨m.1, List.mem_map_of_mem Prod.fst hm, hnone⟩]

/-- Witness for `label_mapping_strict` on a concrete two-URI dataset. -/
theorem label_mapping_strict_witness :
    find_vector [("d", ds1)] "d" [] 1 = .ok ["a"] := by
  have h := (label_mapping_strict [("d", ds1)] "d" ds1 [] 1
      (fun id => if id = 0 then "a" else "b") rfl).1 (by decide)
  exact h.trans (by decide)

/-- **C3**: on a valid dataset (URI list aligned with the index) and
under the black-box index contract of §4.3 (the search returns
`min k size` matches whose labels are in range), the result has length
exactly `k` when `k ≤ size(D)` and exactly `size(D)` when `k > size(D)`;
it is never padded and a short result is not an error. -/
theorem search_result_length (reg : Registry) (name : String) (d : Dataset)
    (v : List ℚ) (k : Nat)
    (hd : reg.lookup name = some d)
    (huris : d.uris.length = d.index.size)
    (hlen : (d.index.search v k).length = min k d.index.size)
    (hlab : ∀ m ∈ d.index.search v k, 0 ≤ m.1 ∧ m.1 < (d.index.size : Int)) :
    ∃ out, find_vector reg name v k = .ok out
      ∧ (k ≤ d.index.size → out.length = k)
      ∧ (d.index.size < k → out.length = d.index.size) := by
  have hall : ∀ id ∈ (d.index.search v k).map Prod.fst,
      pyGet d.uris id = some (d.uris.getD id.toNat "") := by
    intro id hid
    rcases List.mem_map.mp hid with ⟨m, hm, rfl⟩
    rcases hlab m hm with ⟨h0, hlt⟩
    exact pyGet_some_of_lt d.uris m.1 "" h0 (by omega)
  refine ⟨((d.index.search v k).map Prod.fst).map (fun id => d.uris.getD id.toNat ""),
    ?_, ?_, ?_⟩
  · simp only [find_vector, hd]
    rw [mapUris_map d.uris _ _ hall]
  · intro hk
    rw [List.length_map, List.length_map, hlen]
    omega
  · intro hk
    rw [List.length_map, List.length_map, hlen]
    omega

/-- Witness for `search_result_length` on a concrete two-URI dataset
with `k = 1`. -/
theorem search_result_length_witness :
    ∃ out, find_vector [("d", ds1)] "d" [] 1 = .ok out
      ∧ (1 ≤ ds1.index.size → out.length = 1)
      ∧ (ds1.index.size < 1 → out.length = ds1.index.size) :=
  search_result_length [("d", ds1)] "d" ds1 [] 1 rfl (by decide) (by decide)
    (by decide)

/-- **C4 (counterexample)**: `size` returns the index's vector count,
and `open_dataset` accepts a directory whose URI file has three lines
over a two-vector index, so `size(D) ≠ len(D.uris)` is reachable. -/
theorem size_ne_uris_length_cex :
    open_dataset dir0 = .ok ds0
    ∧ size [("d", ds0)] "d" = .ok 2
    ∧ ds0.uris.length = 3
    ∧ size [("d", ds0)] "d" ≠ .ok ds0.uris.length :=
  ⟨rfl, by decide, by decide, by decide⟩

/-- **C4 (amended)**: `size(D)` equals the number of vectors held by
`D`'s index; it also equals `len(D.uris)` and the number of rows of
`D.vectors` whenever the three loaded files agree (an agreement
`open_dataset` does not check). -/
theorem size_is_index_size (reg : Registry) (name : String) (d : Dataset)
    (hd : reg.lookup name = some d) :
    size reg name = .ok d.index.size
    ∧ (d.uris.length = d.index.size → d.vectors.data.length = d.index.size →
        (size reg name = .ok d.uris.length
          ∧ d.uris.length = d.vectors.data.length)) := by
  have h1 : size reg name = .ok d.index.size := by
    unfold size
    rw [hd]
  refine ⟨h1, fun hu hv => ⟨?_, by omega⟩⟩
  rw [h1, hu]

/-- Witness for `size_is_index_size` on a consistent dataset. -/
theorem size_is_index_size_witness :
    size [("d", ds1)] "d" = .ok ds1.index.size
    ∧ size [("d", ds1)] "d" = .ok ds1.uris.length := by
  have h := size_is_index_size [("d", ds1)] "d" ds1 rfl
  exact ⟨h.1, (h.2 (by decide) (by decide)).1⟩

/-- **C5**: `open_dataset` fails with `NotFoundError` when the vector
file, the index file, or (when loading got that far without a dimension
mismatch) the URI list file is missing; it fails with
`DimensionMismatchError` when the persisted index's dimensionality
disagrees with the vector file's column count; with all three files
present and dimensions agreeing it returns the assembled `Dataset`. -/
theorem open_dataset_errors (dir : DirContents) :
    (dir.imagesFbin = none → open_dataset dir = .error .notFound)
    ∧ (dir.imagesUsearch = none → open_dataset dir = .error .notFound)
    ∧ (∀ m idx, dir.imagesFbin = some m → dir.imagesUsearch = some idx →
        idx.ndim ≠ m.ncols → open_dataset dir = .error .dimensionMismatch)
    ∧ (∀ m idx, dir.imagesFbin = some m → dir.imagesUsearch = some idx →
        idx.ndim = m.ncols → dir.imagesTxt = none →
        open_dataset dir = .error .notFound)
    ∧ (∀ m idx t, dir.imagesFbin = some m → dir.imagesUsearch = some idx →
        idx.ndim = m.ncols → dir.imagesTxt = some t →
        open_dataset dir = .ok ⟨idx, splitlines t, m⟩) := by
  refine ⟨?_, ?_, ?_, ?_, ?_⟩
  · intro h
    simp [open_dataset, load_matrix, h]
  · intro h
    cases hf : dir.imagesFbin with
    | none => simp [open_dataset, load_matrix, hf]
    | some m => simp [open_dataset, load_matrix, loadIndex, hf, h]
  · intro m idx hm hi hnd
    simp [open_dataset, load_matrix, loadIndex, hm, hi, hnd]
  · intro m idx hm hi hnd ht
    simp [open_dataset, load_matrix, loadIndex, readFile, hm, hi, hnd, ht]
  · intro m idx t hm hi hnd ht
    simp [open_dataset, load_matrix, loadIndex, readFile, hm, hi, hnd, ht]

/-- Witness for `open_dataset_errors`: an empty directory fails with
`NotFoundError`, and the complete directory `dir0` loads. -/
theorem open_dataset_errors_witness :
    open_dataset ⟨none, none, none⟩ = .error .notFound
    ∧ open_dataset dir0 = .ok ⟨idx0, splitlines "a\nb\nc", mat0⟩ :=
  ⟨(open_dataset_errors ⟨none, none, none⟩).1 rfl,
    (open_dataset_errors dir0).2.2.2.2 mat0 idx0 "a\nb\nc" rfl rfl rfl rfl⟩

/-- **C6 (counterexample)**: `open_dataset` builds a dataset with three
URIs over a two-vector index from `dir0`, so the constructed `Dataset`
need not satisfy `len(uris) == number of vectors indexed`. -/
theorem open_dataset_invariant_unchecked_cex :
    open_dataset dir0 = .ok ds0
    ∧ ds0.uris.length = 3
    ∧ ds0.index.size = 2
    ∧ ds0.uris.length ≠ ds0.index.size :=
  ⟨rfl, by decide, by decide, by decide⟩

/-- **C6 (amended)**: a `Dataset` built by `open_dataset` carries
exactly the index restored from the index file, the lines of the URI
file and the loaded matrix — so `len(uris) == number of vectors indexed`
holds exactly when those files agree, an agreement `open_dataset` does
not check — and no endpoint mutates a `Dataset` or the registry after
startup. -/
theorem open_dataset_fields_and_immutability :
    (∀ (m : Mat) (idx : Index) (t : String) (ds : Dataset),
        open_dataset ⟨some m, some idx, some t⟩ = .ok ds →
          ds.index = idx ∧ ds.uris = splitlines t ∧ ds.vectors = m
            ∧ (ds.uris.length = ds.index.size
                ↔ (splitlines t).length = idx.size))
    ∧ (∀ (s : ServerState) (n q : String) (v : List ℚ) (img : Image) (k : Nat),
        (find_vectorS s n v k).2 = s
        ∧ (find_with_vectorS s n q k).2 = s
        ∧ (find_with_textS s n q k).2 = s
        ∧ (find_with_imageS s n img k).2 = s
        ∧ (sizeS s n).2 = s
        ∧ (dimensionsS s n).2 = s) := by
  constructor
  · intro m idx t ds h
    by_cases hnd : idx.ndim = m.ncols
    · simp only [open_dataset, load_matrix, loadIndex, readFile, hnd, ne_eq,
        not_true_eq_false, if_false, Except.ok.injEq] at h
      subst h
      exact ⟨rfl, rfl, rfl, Iff.rfl⟩
    · simp only [open_dataset, load_matrix, loadIndex, readFile, ne_eq, hnd,
        not_false_eq_true, if_true] at h
      cases h
  · intro s n q v img k
    exact ⟨by rw [find_vectorS_spec], by rw [find_with_vectorS_spec],
      by rw [find_with_textS_spec], by rw [find_with_imageS_spec],
      by rw [sizeS_spec], by rw [dimensionsS_spec]⟩

/-- Witness for `open_dataset_fields_and_immutability` at `dir0`. -/
theorem open_dataset_fields_and_immutability_witness :
    ds0.index = idx0 ∧ ds0.uris = splitlines "a\nb\nc" := by
  have h := open_dataset_fields_and_immutability.1 mat0 idx0 "a\nb\nc" ds0 rfl
  exact ⟨h.1, h.2.1⟩

/-- **C7**: when the index returns in-range labels sorted by
non-decreasing distance (non-increasing similarity — the cosine distance
of §4.3 decreases as similarity grows), `find_vector` returns exactly
the positional image of that match list, so the URI sequence paired with
its distances is sorted the same way: the label → URI mapping step
preserves the order of the `(label, distance)` list. -/
theorem search_order_preserved (reg : Registry) (name : String) (d : Dataset)
    (v : List ℚ) (k : Nat)
    (hd : reg.lookup name = some d)
    (hlab : ∀ m ∈ d.index.search v k, 0 ≤ m.1 ∧ m.1 < (d.uris.length : Int))
    (hsorted : List.Chain' (fun a b : Int × ℚ => a.2 ≤ b.2)
      (d.index.search v k)) :
    find_vector reg name v k =
      .ok ((d.index.search v k).map fun m => d.uris.getD m.1.toNat "")
    ∧ List.Chain' (fun p q : String × ℚ => p.2 ≤ q.2)
        ((d.index.search v k).map fun m => (d.uris.getD m.1.toNat "", m.2)) := by
  constructor
  · have hall : ∀ id ∈ (d.index.search v k).map Prod.fst,
        pyGet d.uris id = some (d.uris.getD id.toNat "") := by
      intro id hid
      rcases List.mem_map.mp hid with ⟨m, hm, rfl⟩
      rcases hlab m hm with ⟨h0, hlt⟩
      exact pyGet_some_of_lt d.uris m.1 "" h0 hlt
    simp only [find_vector, hd]
    rw [mapUris_map d.uris _ _ hall, List.map_map]
    rfl
  · rw [List.chain'_map]
    exact hsorted

/-- Witness for `search_order_preserved` on a concrete sorted search. -/
theorem search_order_preserved_witness :
    find_vector [("d", ds1)] "d" [] 2 =
      .ok ((ds1.index.search [] 2).map fun m => ds1.uris.getD m.1.toNat "")
    ∧ List.Chain' (fun p q : String × ℚ => p.2 ≤ q.2)
        ((ds1.index.search [] 2).map fun m => (ds1.uris.getD m.1.toNat "", m.2)) :=
  search_order_preserved [("d", ds1)] "d" ds1 [] 2 rfl (by decide)
    (by norm_num [ds1, idx0, List.chain'_cons, List.chain'_singleton])

/-- **C8**: every endpoint, restated as a transformer of the
module-level server state, returns that state unchanged, and its result
is the pure function of its arguments, the registry and the model given
by the stateless definitions: no endpoint mutates shared state. -/
theorem endpoints_pure_frame (s : ServerState) (name q : String)
    (v : List ℚ) (img : Image) (k : Nat) :
    find_vectorS s name v k = (find_vector s.datasets name v k, s)
    ∧ find_with_vectorS s name q k = (find_with_vector s.datasets name q k, s)
    ∧ find_with_textS s name q k
        = (find_with_text s.datasets s.model name q k, s)
    ∧ find_with_imageS s name img k
        = (find_with_image s.datasets s.model name img k, s)
    ∧ sizeS s name = (size s.datasets name, s)
    ∧ dimensionsS s name = (dimensions s.datasets name, s) :=
  ⟨find_vectorS_spec s name v k, find_with_vectorS_spec s name q k,
    find_with_textS_spec s name q k, find_with_imageS_spec s name img k,
    sizeS_spec s name, dimensionsS_spec s name⟩

/-- **C9**: decoding the ASCII encoding of any nonempty numeric vector
reproduces the vector exactly (floats are modelled as integer-valued
rationals, so floating-point tolerance sharpens to equality). -/
theorem ascii_roundtrip (v : List Int) (hne : v ≠ []) :
    ascii_to_vector (vector_to_ascii v) = .ok (v.map fun i => (i : ℚ)) := by
  have hparts : ∀ p ∈ v.map encodeInt, (',' : Char) ∉ p := by
    intro p hp hin
    rcases List.mem_map.mp hp with ⟨i, _, rfl⟩
    exact encodeInt_no_comma i ',' hin rfl
  have hne' : v.map encodeInt ≠ [] := by
    simpa using hne
  unfold ascii_to_vector vector_to_ascii
  rw [show (String.mk (joinComma (v.map encodeInt))).data
      = joinComma (v.map encodeInt) from rfl]
  rw [splitOnChar_joinComma _ hne' hparts, mapOption_parse_encode]

/-- Witness for `ascii_roundtrip` at the vector `[1, -2]`. -/
theorem ascii_roundtrip_witness :
    ascii_to_vector (vector_to_ascii [1, -2]) = .ok [(1 : ℚ), (-2 : ℚ)] := by
  have h := ascii_roundtrip [1, -2] (by decide)
  exact h.trans (by decide)

/-- **C10**: if the index returns a label at or beyond `len(uris)` the
whole call fails with an indexing error; a negative label within
`[-len(uris), 0)` is Python-resolved to the URI counted from the end of
the list, and when every label is within Python range the call succeeds
with the positional mapping of the labels. -/
theorem python_indexing_labels (reg : Registry) (name : String) (d : Dataset)
    (v : List ℚ) (k : Nat) (hd : reg.lookup name = some d) :
    ((∃ m ∈ d.index.search v k, (d.uris.length : Int) ≤ m.1) →
        find_vector reg name v k = .error .indexError)
    ∧ (∀ l : Int, -(d.uris.length : Int) ≤ l → l < 0 →
        pyGet d.uris l = d.uris.get? (l + (d.uris.length : Int)).toNat)
    ∧ ((∀ m ∈ d.index.search v k, -(d.uris.length : Int) ≤ m.1
          ∧ m.1 < (d.uris.length : Int)) →
        ∃ out, find_vector reg name v k = .ok out
          ∧ out.length = (d.index.search v k).length
          ∧ ∀ i : Nat, out.get? i =
              (((d.index.search v k).map Prod.fst).get? i).bind (pyGet d.uris)) := by
  refine ⟨?_, ?_, ?_⟩
  · intro hex
    rcases hex with ⟨m, hm, hge⟩
    simp only [find_vector, hd]
    rw [mapUris_none d.uris _
      ⟨m.1, List.mem_map_of_mem Prod.fst hm, pyGet_none_of_ge d.uris m.1 hge⟩]
  · intro l h1 h2
    exact pyGet_neg d.uris l h2 h1
  · intro hall
    have hmap : ∀ id ∈ (d.index.search v k).map Prod.fst,
        pyGet d.uris id = some ((pyGet d.uris id).getD "") := by
      intro id hid
      rcases List.mem_map.mp hid with ⟨m, hm, rfl⟩
      rcases hall m hm with ⟨hge, hlt⟩
      by_cases h0 : 0 ≤ m.1
      · rw [pyGet_some_of_lt d.uris m.1 "" h0 hlt]
        rfl
      · rw [pyGet_neg d.uris m.1 (by omega) hge,
          get?_eq_some_getD d.uris _ "" (by omega)]
        rfl
    have hm := mapUris_map d.uris (fun id => (pyGet d.uris id).getD "") _ hmap
    refine ⟨((d.index.search v k).map Prod.fst).map
      (fun id => (pyGet d.uris id).getD ""), ?_, ?_, ?_⟩
    · simp only [find_vector, hd]
      rw [hm]
    · rw [(mapUris_get? d.uris _ _ hm).1, List.length_map]
    · exact (mapUris_get? d.uris _ _ hm).2

/-- Witness for `python_indexing_labels`: a negative label resolves from
the end of the URI list, an oversized label fails the call. -/
theorem python_indexing_labels_witness :
    pyGet dsNeg.uris (-1)
      = dsNeg.uris.get? ((-1 : Int) + (dsNeg.uris.length : Int)).toNat
    ∧ find_vector [("d", dsBad)] "d" [] 2 = .error .indexError := by
  have h1 := (python_indexing_labels [("d", dsNeg)] "d" dsNeg [] 1 rfl).2.1
    (-1) (by decide) (by decide)
  have h2 := (python_indexing_labels [("d", dsBad)] "d" dsBad [] 2 rfl).1
    ⟨(5, 0), by decide, by decide⟩
  exact ⟨h1, h2⟩

end UImg
